import Mathlib

/-!
Verification of the client-side content layer of the kali-linux-features-website
repository: the RSS feed aggregator (`js/rss-fetcher.js`) and the SEO meta-tag
helper (`js/auto-content.js`), shallowly embedded in Lean.

Conventions of the embedding:
* JS strings are `String`, JS numbers in scope here are `Int` (all arithmetic in
  the sources is on integral epoch-millisecond values and counts).
* A JS `Date` object is represented by its epoch-millisecond value (`Int`).
* Fields that may be `undefined` on a raw feed item are `Option`; JS string
  truthiness (`undefined`, `null` and `""` are falsy) is `jsOrStr`.
* The network and the date parser are platform collaborators, passed in as an
  explicit environment (`FetchEnv`).
* `Array.prototype.sort` with a consistent comparator is specified by ECMAScript
  to be a stable sort; for a total preorder comparator every stable sort yields
  the same output, realised here by `List.insertionSort`.
-/

/-! ### Date rendering (ECMAScript Date built-ins used by the sources) -/

/-- Left-pad the decimal digits of `n` with zeros to `width` characters. -/
def pad0 (width : Nat) (n : Nat) : String :=
  let s := toString n
  if s.length < width then String.mk (List.replicate (width - s.length) '0') ++ s else s

/-- Proleptic-Gregorian civil date (year, month, day) from days since 1970-01-01,
using the standard era-based algorithm. Divisions are Euclidean, which agrees
with floor division for the positive divisors used here. -/
def civilFromDays (z : Int) : Int × Int × Int :=
  let zs := z + 719468
  let era := Int.ediv zs 146097
  let doe := zs - era * 146097
  let yoe := Int.ediv (doe - Int.ediv doe 1460 + Int.ediv doe 36524 - Int.ediv doe 146096) 365
  let y := yoe + era * 400
  let doy := doe - (365 * yoe + Int.ediv yoe 4 - Int.ediv yoe 100)
  let mp := Int.ediv (5 * doy + 2) 153
  let d := doy - Int.ediv (153 * mp + 2) 5 + 1
  let m := mp + (if mp < 10 then 3 else -9)
  (y + (if m ≤ 2 then 1 else 0), m, d)

/-- Embedding of `Date.prototype.toISOString` (ECMAScript built-in called by
`generateArticleHTML` and by `JSON.stringify` on `Date` values): renders an
epoch-millisecond value as `YYYY-MM-DDTHH:mm:ss.sssZ` in UTC.  Years outside
0–9999 are not padded to the extended format, which no claim exercises. -/
def toISOString (ms : Int) : String :=
  let total := Int.ediv ms 1000
  let msPart := Int.emod ms 1000
  let days := Int.ediv total 86400
  let secs := Int.emod total 86400
  let ymd := civilFromDays days
  let hh := Int.ediv secs 3600
  let mi := Int.ediv (Int.emod secs 3600) 60
  let ss := Int.emod secs 60
  pad0 4 ymd.1.toNat ++ "-" ++ pad0 2 ymd.2.1.toNat ++ "-" ++ pad0 2 ymd.2.2.toNat ++ "T" ++
    pad0 2 hh.toNat ++ ":" ++ pad0 2 mi.toNat ++ ":" ++ pad0 2 ss.toNat ++ "." ++
    pad0 3 msPart.toNat ++ "Z"

/-- Short month name used by `toLocaleDateString` with month "short" in en-US. -/
def monthShort (m : Nat) : String :=
  ["Jan", "Feb", "Mar", "Apr", "May", "Jun", "Jul", "Aug", "Sep", "Oct", "Nov", "Dec"].getD
    (m - 1) ""

/-- Embedding of `formatDate` (rss-fetcher.js line 136): renders the date via
`toLocaleDateString` for en-US with numeric year, short month, numeric day.
The browser formats in the local time zone; the embedding uses UTC, a rendering
detail no claim depends on. -/
def formatDate (ms : Int) : String :=
  let ymd := civilFromDays (Int.ediv (Int.ediv ms 1000) 86400)
  monthShort ymd.2.1.toNat ++ " " ++ toString ymd.2.2.toNat ++ ", " ++ toString ymd.1.toNat

/-- Embedding of `String.prototype.toLowerCase` for the ASCII range the claims
exercise: each character is lowercased individually. -/
def toLowerStr (s : String) : String := String.mk (s.data.map Char.toLower)

/-- Embedding of `String.prototype.trim`: strip leading and trailing
whitespace. -/
def trimStr (s : String) : String :=
  String.mk (((s.data.dropWhile Char.isWhitespace).reverse.dropWhile Char.isWhitespace).reverse)

/-! ### The Article data model (spec section 3, built by `parseFeedItems`) -/

/-- One normalized news entry, as produced by `parseFeedItems`
(rss-fetcher.js lines 45-54). `pubDate` is the `Date` object's epoch-millisecond
value. -/
structure Article where
  title : String
  link : String
  description : String
  pubDate : Int
  author : String
  thumbnail : String
  categories : List String
  source : String
deriving DecidableEq, Repr

/-- Configuration surface of the aggregator (rss-fetcher.js constructor). Only
the fields that the verified operations consume are carried. -/
structure RSSConfig where
  feeds : List String
  maxArticles : Nat
  updateInterval : Int

/-! ### escapeHtml and the HTML generator -/

/-- The double-quote character. -/
def quotC : Char := Char.ofNat 34

/-- The apostrophe character. -/
def aposC : Char := Char.ofNat 39

/-- Per-character replacement performed by `escapeHtml`
(rss-fetcher.js lines 124-133): the regex `[&<>"']` with the replacement map. -/
def escapeChar (c : Char) : List Char :=
  if c = '&' then "&amp;".data
  else if c = '<' then "&lt;".data
  else if c = '>' then "&gt;".data
  else if c = quotC then "&quot;".data
  else if c = aposC then "&#039;".data
  else [c]

/-- Embedding of `escapeHtml` (rss-fetcher.js lines 124-133): a single pass over
the string replacing each character matched by `[&<>"']` with its entity. The
`String(text)` coercion is the identity here because every call site passes a
string. -/
def escapeHtml (text : String) : String := String.mk ((text.data.map escapeChar).flatten)

/-- The five characters the spec requires to never appear verbatim from fields. -/
def htmlSpecialChars : List Char := ['&', '<', '>', quotC, aposC]

/-- The five escaped forms produced by `escapeHtml`. -/
def htmlEntityList : List (List Char) :=
  ["&amp;".data, "&lt;".data, "&gt;".data, "&quot;".data, "&#039;".data]

/-- A character list is in escaped form when it decomposes into characters that
are not HTML-special and complete entity strings: every occurrence of
`&`, `<`, `>`, `"`, `'` in it is part of an escaped entity, never verbatim. -/
inductive EntityChunks : List Char → Prop where
  | nil : EntityChunks []
  | plain {c : Char} {rest : List Char} :
      c ∉ htmlSpecialChars → EntityChunks rest → EntityChunks (c :: rest)
  | entity {e rest : List Char} :
      e ∈ htmlEntityList → EntityChunks rest → EntityChunks (e ++ rest)

/-- The card markup for one article, parameterized by the escaping function
applied to every interpolated article field. The fixed markup of the template
literal in `generateArticleHTML` (rss-fetcher.js lines 68-119) is kept verbatim;
the insignificant indentation whitespace of the template literal is omitted. -/
def articleHTMLWith (esc : String → String) (a : Article) : String :=
  "<article class=\"auto-post\" itemscope itemtype=\"https://schema.org/Article\">" ++
  (if a.thumbnail ≠ "" then
    "<div class=\"article-thumbnail\"><img src=\"" ++ esc a.thumbnail ++
    "\" alt=\"" ++ esc a.title ++ "\" loading=\"lazy\" itemprop=\"image\"></div>"
   else "") ++
  "<div class=\"article-content\"><header><h3 itemprop=\"headline\"><a href=\"" ++
  esc a.link ++
  "\" target=\"_blank\" rel=\"noopener noreferrer nofollow\" itemprop=\"url\">" ++
  esc a.title ++
  "</a></h3><div class=\"article-meta\"><time datetime=\"" ++
  toISOString a.pubDate ++
  "\" itemprop=\"datePublished\">" ++
  formatDate a.pubDate ++
  "</time><span class=\"article-source\" itemprop=\"publisher\" itemscope itemtype=\"https://schema.org/Organization\"><span itemprop=\"name\">" ++
  esc a.source ++
  "</span></span>" ++
  (if a.author ≠ "Unknown" then
    "<span class=\"article-author\" itemprop=\"author\" itemscope itemtype=\"https://schema.org/Person\"><span itemprop=\"name\">" ++
    esc a.author ++ "</span></span>"
   else "") ++
  "</div></header><p class=\"article-description\" itemprop=\"description\">" ++
  esc a.description ++
  "</p>" ++
  (if a.categories.length > 0 then
    "<div class=\"article-categories\">" ++
    String.join ((a.categories.take 3).map
      (fun cat => "<span class=\"category-tag\" itemprop=\"keywords\">" ++ esc cat ++ "</span>")) ++
    "</div>"
   else "") ++
  "<a href=\"" ++ esc a.link ++
  "\" class=\"read-more\" target=\"_blank\" rel=\"noopener noreferrer nofollow\">Read More →</a></div></article>"

/-- The article sequence renderer with the escaping function as a parameter:
`articles.slice(0, maxArticles).map(...).join('')`. -/
def generateArticleHTMLWith (esc : String → String) (cfg : RSSConfig)
    (articles : List Article) : String :=
  String.join ((articles.take cfg.maxArticles).map (articleHTMLWith esc))

/-- The card markup for one article as generated by `generateArticleHTML`
(rss-fetcher.js lines 68-119), with every interpolated article field passed
through `escapeHtml`; `pubDate` is rendered by the date built-ins. -/
def articleHTML (a : Article) : String :=
  "<article class=\"auto-post\" itemscope itemtype=\"https://schema.org/Article\">" ++
  (if a.thumbnail ≠ "" then
    "<div class=\"article-thumbnail\"><img src=\"" ++ escapeHtml a.thumbnail ++
    "\" alt=\"" ++ escapeHtml a.title ++ "\" loading=\"lazy\" itemprop=\"image\"></div>"
   else "") ++
  "<div class=\"article-content\"><header><h3 itemprop=\"headline\"><a href=\"" ++
  escapeHtml a.link ++
  "\" target=\"_blank\" rel=\"noopener noreferrer nofollow\" itemprop=\"url\">" ++
  escapeHtml a.title ++
  "</a></h3><div class=\"article-meta\"><time datetime=\"" ++
  toISOString a.pubDate ++
  "\" itemprop=\"datePublished\">" ++
  formatDate a.pubDate ++
  "</time><span class=\"article-source\" itemprop=\"publisher\" itemscope itemtype=\"https://schema.org/Organization\"><span itemprop=\"name\">" ++
  escapeHtml a.source ++
  "</span></span>" ++
  (if a.author ≠ "Unknown" then
    "<span class=\"article-author\" itemprop=\"author\" itemscope itemtype=\"https://schema.org/Person\"><span itemprop=\"name\">" ++
    escapeHtml a.author ++ "</span></span>"
   else "") ++
  "</div></header><p class=\"article-description\" itemprop=\"description\">" ++
  escapeHtml a.description ++
  "</p>" ++
  (if a.categories.length > 0 then
    "<div class=\"article-categories\">" ++
    String.join ((a.categories.take 3).map
      (fun cat => "<span class=\"category-tag\" itemprop=\"keywords\">" ++ escapeHtml cat ++ "</span>")) ++
    "</div>"
   else "") ++
  "<a href=\"" ++ escapeHtml a.link ++
  "\" class=\"read-more\" target=\"_blank\" rel=\"noopener noreferrer nofollow\">Read More →</a></div></article>"

/-- Embedding of `generateArticleHTML` (rss-fetcher.js lines 67-121):
`articles.slice(0, this.maxArticles).map(article => ...).join('')`. -/
def generateArticleHTML (cfg : RSSConfig) (articles : List Article) : String :=
  String.join ((articles.take cfg.maxArticles).map articleHTML)

/-! ### sanitizeText and parseFeedItems -/

/-- Character-level pass removing tag-delimited segments: state is whether the
scan is inside a `<`...`>` tag. -/
def stripTagsAux : Bool → List Char → List Char
  | _, [] => []
  | inTag, c :: cs =>
    if c = '<' then stripTagsAux true cs
    else if c = '>' then stripTagsAux false cs
    else if inTag then stripTagsAux true cs
    else c :: stripTagsAux false cs

/-- Modelled from the spec: the markup stripping inside `sanitizeText`
(rss-fetcher.js lines 60-62) is performed by the browser built-ins
`temp.innerHTML = text; temp.textContent`, which are not part of the
repository; following the spec wording "HTML-sanitizes title/description by
stripping markup" it is modelled as removal of tag-delimited segments. -/
def stripTags (s : String) : String := String.mk (stripTagsAux false s.data)

/-- Embedding of `sanitizeText` (rss-fetcher.js lines 58-64): falsy input gives
the empty string, otherwise the markup-stripped text is trimmed and truncated
by `substring(0, 200)`. -/
def sanitizeText (text : Option String) : String :=
  match text with
  | none => ""
  | some s => if s = "" then "" else String.mk ((trimStr (stripTags s)).data.take 200)

/-- The optional enclosure object of a raw feed item (`item.enclosure`). -/
structure Enclosure where
  link : Option String
deriving DecidableEq, Repr

/-- A raw item of the feed-to-JSON proxy response. Fields the sources access
with defaulting or optional chaining are `Option`; `link` and `pubDate` are
consumed as-is. -/
structure FeedItem where
  title : Option String
  link : String
  description : Option String
  pubDate : String
  author : Option String
  thumbnail : Option String
  enclosure : Option Enclosure
  categories : Option (List String)
deriving DecidableEq, Repr

/-- The `feed` object of the proxy response (`feedData.feed?.title`). -/
structure FeedMeta where
  title : Option String
deriving DecidableEq, Repr

/-- A decoded proxy response body: `{ items: [...], feed: { title } }`. -/
structure FeedData where
  items : Option (List FeedItem)
  feed : Option FeedMeta
deriving DecidableEq, Repr

/-- JS string defaulting `o || d`: `undefined`/`null`/`""` are falsy. -/
def jsOrStr (o : Option String) (d : String) : String :=
  match o with
  | some s => if s = "" then d else s
  | none => d

/-- The per-item mapping inside `parseFeedItems` (rss-fetcher.js lines 45-54);
`parseDate` embeds the `new Date(item.pubDate)` construction. -/
def itemToArticle (parseDate : String → Int) (feed : Option FeedMeta)
    (item : FeedItem) : Article :=
  { title := sanitizeText item.title
    link := item.link
    description := sanitizeText item.description
    pubDate := parseDate item.pubDate
    author := jsOrStr item.author "Unknown"
    thumbnail := jsOrStr item.thumbnail (jsOrStr (item.enclosure.bind Enclosure.link) "")
    categories := item.categories.getD []
    source := jsOrStr (feed.bind FeedMeta.title) "External Source" }

/-- Embedding of `parseFeedItems` (rss-fetcher.js lines 42-55): a null response
or a response without an items list yields `[]`, otherwise each raw item maps
to one Article. (A present-but-empty `categories` array is truthy in JS, so
`item.categories || []` agrees with `Option.getD` in both cases.) -/
def parseFeedItems (parseDate : String → Int) (feedData : Option FeedData) : List Article :=
  match feedData with
  | none => []
  | some fd =>
    match fd.items with
    | none => []
    | some items => items.map (itemToArticle parseDate fd.feed)

/-! ### fetchFeed, fetchAllFeeds and the render pipeline -/

/-- The platform collaborators of the aggregator: `net` maps a feed URL to the
decoded proxy response, or `none` for any failure caught inside `fetchFeed`
(network error, non-success HTTP status, malformed JSON body); `parseDate`
embeds `new Date(string)`. -/
structure FetchEnv where
  net : String → Option FeedData
  parseDate : String → Int

/-- Embedding of `fetchFeed` (rss-fetcher.js lines 20-32): a single attempt
whose every failure mode is caught and converted to the null sentinel, here
`none`. The proxy-URL concatenation and `encodeURIComponent` are part of the
opaque transport and folded into `net`. -/
def fetchFeed (env : FetchEnv) (feedUrl : String) : Option FeedData := env.net feedUrl

/-- Embedding of `fetchAllFeeds` (rss-fetcher.js lines 35-39): every configured
feed is fetched and `results.filter(result => result !== null)` keeps exactly
the non-null payloads, in feed order. -/
def fetchAllFeeds (env : FetchEnv) (feeds : List String) : List FeedData :=
  ((feeds.map (fetchFeed env)).filterMap id)

/-- Descending-date order used by `sortArticlesByDate`: the comparator
`(a, b) => b.pubDate - a.pubDate` keeps `a` no later than `b` exactly when
`b.pubDate - a.pubDate ≤ 0`. -/
def dateGE (a b : Article) : Prop := b.pubDate ≤ a.pubDate

instance : DecidableRel dateGE :=
  fun a b => inferInstanceAs (Decidable (b.pubDate ≤ a.pubDate))

instance : IsTotal Article dateGE := ⟨fun a b => le_total b.pubDate a.pubDate⟩

instance : IsTrans Article dateGE := ⟨fun _ _ _ h1 h2 => le_trans h2 h1⟩

/-- Embedding of `sortArticlesByDate` (rss-fetcher.js lines 142-144) as a value:
the stable sort of the array contents under the comparator
`(a, b) => b.pubDate - a.pubDate` (newest first). -/
def sortArticlesByDate (articles : List Article) : List Article :=
  List.insertionSort dateGE articles

/-- Heap update for the in-place view of `sortArticlesByDate`: the caller's
array reference `r` is bound to new contents. -/
def heapUpdate (σ : Nat → List Article) (r : Nat) (v : List Article) :
    Nat → List Article :=
  fun s => if s = r then v else σ s

/-- Embedding of the call `sortArticlesByDate(articles)` with the mutation made
explicit: `articles.sort(...)` reorders the array behind reference `r` in place
and returns that same reference (ECMAScript `Array.prototype.sort` returns the
receiver). The result is the updated heap together with the returned
reference. -/
def sortArticlesByDateCall (σ : Nat → List Article) (r : Nat) :
    (Nat → List Article) × Nat :=
  (heapUpdate σ r (sortArticlesByDate (σ r)), r)

/-- The error placeholder written by `displayArticles` when every feed failed
(rss-fetcher.js line 201). -/
def errorHTML : String :=
  "<div class=\"error\">Failed to load articles. Please try again later.</div>"

/-- The container HTML produced by the fetch branch of `displayArticles`
(rss-fetcher.js lines 198-215), entered when the cache read misses: fetch all
feeds, show the error placeholder if none survived, otherwise parse every feed,
flatten, sort and render. The concurrent cache write (line 214) does not affect
the rendered string and the cache-hit branch is not modelled here. -/
def displayArticlesHTML (env : FetchEnv) (cfg : RSSConfig) : String :=
  let feeds := fetchAllFeeds env cfg.feeds
  if feeds.length = 0 then errorHTML
  else
    let allArticles := feeds.foldl (fun acc fd => acc ++ parseFeedItems env.parseDate (some fd)) []
    generateArticleHTML cfg (sortArticlesByDate allArticles)

/-! ### The localStorage cache and the JSON round-trip -/

/-- The fragment of JS runtime values flowing through the cache: note that a
`Date` object (`date`) is a distinct kind of value from a plain string. -/
inductive JsValue where
  | null : JsValue
  | bool (b : Bool) : JsValue
  | num (n : Int) : JsValue
  | str (s : String) : JsValue
  | date (ms : Int) : JsValue
  | arr (elems : List JsValue) : JsValue
  | obj (fields : List (String × JsValue)) : JsValue

mutual

/-- The value produced by `JSON.parse(JSON.stringify v)`, per the ECMAScript
built-ins called by `cacheArticles` and `getCachedArticles`: plain values and
containers survive verbatim, but a `Date` is serialized through its `toJSON`
method as its `toISOString` text, and `JSON.parse` has no reviver here, so it
comes back as a plain string. -/
def jsonRoundTrip : JsValue → JsValue
  | .null => .null
  | .bool b => .bool b
  | .num n => .num n
  | .str s => .str s
  | .date ms => .str (toISOString ms)
  | .arr xs => .arr (jsonRoundTripList xs)
  | .obj fs => .obj (jsonRoundTripFields fs)

/-- Pointwise `jsonRoundTrip` over array elements. -/
def jsonRoundTripList : List JsValue → List JsValue
  | [] => []
  | v :: vs => jsonRoundTrip v :: jsonRoundTripList vs

/-- Pointwise `jsonRoundTrip` over object fields. -/
def jsonRoundTripFields : List (String × JsValue) → List (String × JsValue)
  | [] => []
  | (k, v) :: fs => (k, jsonRoundTrip v) :: jsonRoundTripFields fs

end

/-- First-match field lookup on a JS object literal. -/
def lookupField : List (String × JsValue) → String → Option JsValue
  | [], _ => none
  | (k2, v) :: fs, k => if k2 = k then some v else lookupField fs k

/-- Property access `v[k]` on the decoded cache record. -/
def objField : JsValue → String → Option JsValue
  | .obj fs, k => lookupField fs k
  | _, _ => none

/-- The in-memory JS value of one Article as held before caching: all fields
strings or string arrays except `pubDate`, which is a `Date` object. -/
def articleJs (a : Article) : JsValue :=
  .obj [("title", .str a.title), ("link", .str a.link),
        ("description", .str a.description), ("pubDate", .date a.pubDate),
        ("author", .str a.author), ("thumbnail", .str a.thumbnail),
        ("categories", .arr (a.categories.map JsValue.str)),
        ("source", .str a.source)]

/-- Embedding of `cacheArticles` (rss-fetcher.js lines 147-157): the new state
of the `rss_cache` localStorage slot. The slot is modelled as holding the JS
value whose `JSON.stringify` text was stored; `now` is `Date.now()` at the
write. -/
def cacheArticles (articles : List Article) (now : Int) : Option JsValue :=
  some (.obj [("articles", .arr (articles.map articleJs)), ("timestamp", .num now)])

/-- Embedding of `getCachedArticles` (rss-fetcher.js lines 160-177): an empty
slot is a miss; otherwise the stored text is `JSON.parse`d (the round-trip of
the stored value) and the articles field is returned only while
`now - timestamp < updateInterval`. A non-numeric timestamp would make the age
comparison `NaN < updateInterval`, which is false in JS, hence a miss. -/
def getCachedArticles (slot : Option JsValue) (now updateInterval : Int) :
    Option JsValue :=
  match slot with
  | none => none
  | some v =>
    match objField (jsonRoundTrip v) "timestamp", objField (jsonRoundTrip v) "articles" with
    | some (.num ts), some arts =>
      if now - ts < updateInterval then some arts else none
    | _, _ => none

/-! ### The document head and updateMetaTag -/

/-- A head element: tag name plus its attribute list in document order. -/
structure MetaElem where
  name : String
  attrs : List (String × String)
deriving DecidableEq, Repr

/-- First-match attribute lookup (`getAttribute`). -/
def lookupAttr : List (String × String) → String → Option String
  | [], _ => none
  | p :: ps, k => if p.1 = k then some p.2 else lookupAttr ps k

/-- DOM `setAttribute`: an existing attribute is updated in place, a new one is
appended. -/
def setAttr (e : MetaElem) (k v : String) : MetaElem :=
  match lookupAttr e.attrs k with
  | some _ => ⟨e.name, e.attrs.map (fun p => if p.1 = k then (k, v) else p)⟩
  | none => ⟨e.name, e.attrs ++ [(k, v)]⟩

/-- Whether a head element matches the selector
`meta[attributeType="property"]`. -/
def metaMatches (attributeType property : String) (e : MetaElem) : Bool :=
  (e.name == "meta") && (lookupAttr e.attrs attributeType == some property)

/-- Set the content attribute on the first matching element of the head, or
report that none matched (`document.querySelector` + `setAttribute`). -/
def setFirstMatch (attributeType property content : String) :
    List MetaElem → Option (List MetaElem)
  | [] => none
  | e :: es =>
    if metaMatches attributeType property e then
      some (setAttr e "content" content :: es)
    else (setFirstMatch attributeType property content es).map (fun h => e :: h)

/-- Embedding of `updateMetaTag` (auto-content.js lines 54-64) as a transformer
of the document head: a falsy content is a no-op; otherwise the first element
matching `meta[attributeType="property"]` gets its content set, and if none
matches, a fresh meta tag carrying the attribute pair is appended and then gets
its content set. (In the source the content is set after the append; only the
resulting head state is modelled.) -/
def updateMetaTag (property content attributeType : String)
    (head : List MetaElem) : List MetaElem :=
  if content = "" then head
  else
    match setFirstMatch attributeType property content head with
    | some h => h
    | none => head ++ [setAttr (setAttr ⟨"meta", []⟩ attributeType property) "content" content]

/-! ### slugify -/

/-- Whether a character is a JS word character (`\w`, that is `[A-Za-z0-9_]`). -/
def jsWordChar (c : Char) : Bool := c.isAlphanum || c = '_'

/-- Replace every maximal whitespace run by a single hyphen (`/\s+/g` → `-`);
the flag records whether the previous character was whitespace. -/
def wsRunsAux : Bool → List Char → List Char
  | _, [] => []
  | prevWs, c :: cs =>
    if c.isWhitespace then
      (if prevWs then wsRunsAux true cs else '-' :: wsRunsAux true cs)
    else c :: wsRunsAux false cs

/-- Collapse every run of two or more hyphens to one (`/\-\-+/g` → `-`); the
flag records whether the previous character was a hyphen. -/
def hyRunsAux : Bool → List Char → List Char
  | _, [] => []
  | prev, c :: cs =>
    if c = '-' then (if prev then hyRunsAux true cs else c :: hyRunsAux true cs)
    else c :: hyRunsAux false cs

/-- Embedding of `slugify` (auto-content.js lines 121-129): lowercase, trim,
whitespace runs to single hyphens, drop characters that are neither word
characters nor hyphens (`/[^\w\-]+/g` → empty), collapse repeated hyphens. -/
def slugify (text : String) : String :=
  String.mk
    (hyRunsAux false
      ((wsRunsAux false (trimStr (toLowerStr text)).data).filter
        (fun c => jsWordChar c || c = '-')))

/-! ### extractKeywords -/

/-- The fixed stop-word list of `extractKeywords` (auto-content.js line 133). -/
def commonWords : List String :=
  ["the", "is", "at", "which", "on", "a", "an", "and", "or", "but", "in", "with", "to", "for"]

/-- Whether a character is a lowercase ASCII letter (`[a-z]`). -/
def isLowerAZ (c : Char) : Bool := decide ('a' ≤ c) && decide (c ≤ 'z')

/-- Split a character list into its maximal runs of word characters, in order;
the accumulator holds the current run reversed. -/
def wordRunsAux : List Char → List Char → List (List Char)
  | acc, [] => if acc.isEmpty then [] else [acc.reverse]
  | acc, c :: cs =>
    if jsWordChar c then wordRunsAux (c :: acc) cs
    else if acc.isEmpty then wordRunsAux [] cs else acc.reverse :: wordRunsAux [] cs

/-- The token list `text.toLowerCase().match(/\b[a-z]{4,}\b/g) || []`: a match
of that regex is exactly a maximal word-character run that consists solely of
lowercase letters and has length at least 4 (a word boundary cannot occur
between two word characters, so a run containing a digit or underscore has no
match inside it). -/
def tokensOf (text : String) : List String :=
  (wordRunsAux [] (toLowerStr text).data).filterMap
    (fun r => if 4 ≤ r.length ∧ r.all isLowerAZ then some (String.mk r) else none)

/-- The tokens surviving the stop-word filter
(`words.filter(word => !commonWords.includes(word))`). -/
def filteredTokens (text : String) : List String :=
  (tokensOf text).filter (fun w => decide (w ∉ commonWords))

/-- One step of the frequency count `frequency[word] = (frequency[word] || 0) + 1`
on the insertion-ordered entry list of the frequency object: the first entry
with the given key is incremented, a missing key is appended with count 1. -/
def bump : List (String × Nat) → String → List (String × Nat)
  | [], w => [(w, 1)]
  | (k, n) :: rest, w =>
    if k = w then (k, n + 1) :: rest else (k, n) :: bump rest w

/-- The entries of the frequency object in insertion order, as produced by the
`forEach` loop and read back by `Object.entries` (JS objects preserve insertion
order for the non-numeric string keys used here, and every token is
alphabetic). -/
def freqEntries (ws : List String) : List (String × Nat) := ws.foldl bump []

/-- Descending-count order used on the frequency entries: the comparator
`(a, b) => b[1] - a[1]` keeps `a` no later than `b` exactly when
`b[1] - a[1] ≤ 0`. -/
def entryGE (a b : String × Nat) : Prop := b.2 ≤ a.2

instance : DecidableRel entryGE :=
  fun a b => inferInstanceAs (Decidable (b.2 ≤ a.2))

instance : IsTotal (String × Nat) entryGE := ⟨fun a b => Nat.le_total b.2 a.2⟩

instance : IsTrans (String × Nat) entryGE := ⟨fun _ _ _ h1 h2 => le_trans h2 h1⟩

/-- Embedding of `extractKeywords` (auto-content.js lines 132-146): tokenize,
drop stop words, count frequencies, stable-sort the entries by descending
count, keep the first `count` entries and return their keys. -/
def extractKeywords (text : String) (count : Nat) : List String :=
  ((List.insertionSort entryGE (freqEntries (filteredTokens text))).take count).map Prod.fst

/-! ### Concrete instances used by witnesses and counterexamples -/

/-- A concrete article used for the cache round-trip counterexample. -/
def sampleArticle : Article :=
  ⟨"t", "l", "d", 0, "Unknown", "", [], "s"⟩

/-- The three raw items of the successful feed in the C5 scenario. -/
def scenarioItems : List FeedItem :=
  [⟨some "i1", "l1", some "d1", "p1", none, none, none, none⟩,
   ⟨some "i2", "l2", some "d2", "p2", none, none, none, none⟩,
   ⟨some "i3", "l3", some "d3", "p3", none, none, none, none⟩]

/-- The decoded 200 response of the succeeding feed in the C5 scenario. -/
def goodFeed : FeedData := ⟨some scenarioItems, some ⟨some "Good Feed"⟩⟩

/-- The C5 scenario environment: feed "feedA" succeeds with three items,
feed "feedB" answers with a 500 status, which `fetchFeed` converts to the null
sentinel. -/
def scenarioEnv : FetchEnv :=
  ⟨fun u => if u = "feedA" then some goodFeed else none, fun _ => 0⟩

/-- The C5 scenario configuration: two feeds, default `maxArticles` 10. -/
def scenarioCfg : RSSConfig := ⟨["feedA", "feedB"], 10, 3600000⟩

/-- A concrete heap for C10 whose array 0 is out of order. -/
def exampleHeap : Nat → List Article :=
  fun _ => [⟨"old", "", "", 1, "", "", [], ""⟩, ⟨"new", "", "", 5, "", "", [], ""⟩]

/-- First-match lookup on the frequency-object entry list. -/
def lookupCount : List (String × Nat) → String → Option Nat
  | [], _ => none
  | (k2, n) :: fs, k => if k2 = k then some n else lookupCount fs k

/-! ### Helper lemmas -/

/-- Stability of the stable sort, filter form: the elements satisfying a
predicate on which the order ties keep exactly their input order. -/
theorem filter_insertionSort_ties {α : Type} (r : α → α → Prop) [DecidableRel r]
    (p : α → Bool) (hp : ∀ a b, p a → p b → r a b) (l : List α) :
    (List.insertionSort r l).filter p = l.filter p := by
  have hsub : List.Sublist (l.filter p) l := List.filter_sublist l
  have hpw : (l.filter p).Pairwise r := by
    apply List.pairwise_of_forall_mem_list
    intro a ha b hb
    exact hp a b (List.mem_filter.mp ha).2 (List.mem_filter.mp hb).2
  have h2 : List.Sublist (l.filter p) (List.insertionSort r l) :=
    List.sublist_insertionSort hpw hsub
  have h3 : List.Sublist (l.filter p) ((List.insertionSort r l).filter p) := by
    have h4 := h2.filter p
    rwa [List.filter_filter, show (fun a => p a && p a) = p by funext a; exact Bool.and_self _]
      at h4
  have h5 : ((List.insertionSort r l).filter p).length = (l.filter p).length :=
    ((List.perm_insertionSort r l).filter p).length_eq
  exact (h3.eq_of_length h5.symm).symm

/-- Every character list mapped through `escapeChar` and flattened is in
escaped form. -/
theorem escapeChar_chunks (cs : List Char) : EntityChunks ((cs.map escapeChar).flatten) := by
  induction cs with
  | nil => exact .nil
  | cons c cs ih =>
    rw [List.map_cons, List.flatten_cons]
    by_cases h1 : c = '&'
    · rw [h1, show escapeChar '&' = "&amp;".data from rfl]
      exact .entity (by decide) ih
    by_cases h2 : c = '<'
    · rw [h2, show escapeChar '<' = "&lt;".data from rfl]
      exact .entity (by decide) ih
    by_cases h3 : c = '>'
    · rw [h3, show escapeChar '>' = "&gt;".data from rfl]
      exact .entity (by decide) ih
    by_cases h4 : c = quotC
    · rw [h4, show escapeChar quotC = "&quot;".data from rfl]
      exact .entity (by decide) ih
    by_cases h5 : c = aposC
    · rw [h5, show escapeChar aposC = "&#039;".data from rfl]
      exact .entity (by decide) ih
    · have he : escapeChar c = [c] := by
        unfold escapeChar
        rw [if_neg h1, if_neg h2, if_neg h3, if_neg h4, if_neg h5]
      rw [he, List.singleton_append]
      refine .plain ?_ ih
      simp only [htmlSpecialChars, List.mem_cons, List.not_mem_nil, or_false]
      exact fun h => h.elim h1 (fun h => h.elim h2 (fun h => h.elim h3 (fun h => h.elim h4 h5)))

/-! ### Claim theorems -/

/-- C1: every article field (title, link, description, source, author,
thumbnail, categories) enters the output of `generateArticleHTML` only through
`escapeHtml`, and the output of `escapeHtml` is in escaped form: any
`&`, `<`, `>`, `"`, `'` coming from a field appears only as its entity
(`&amp;`, `&lt;`, `&gt;`, `&quot;`, `&#039;`), never verbatim. -/
theorem generateArticleHTML_escapes_fields :
    (∀ cfg articles, generateArticleHTML cfg articles =
      generateArticleHTMLWith escapeHtml cfg articles) ∧
    ∀ s : String, EntityChunks (escapeHtml s).data :=
  ⟨fun _ _ => rfl, fun s => escapeChar_chunks s.data⟩

/-- C2: the cache round-trip does NOT return the stored sequence deep-equally.
Storing one article and reading it back one millisecond later (well before
`updateInterval`) yields an article whose `pubDate` is the ISO string
serialization of the stored `Date`, not the `Date` value itself: the read
result differs from the stored in-memory array exactly at `pubDate`. -/
theorem cache_roundtrip_pubDate_becomes_string :
    getCachedArticles (cacheArticles [sampleArticle] 100) 101 3600000 =
      some (.arr [.obj [("title", .str "t"), ("link", .str "l"),
        ("description", .str "d"), ("pubDate", .str "1970-01-01T00:00:00.000Z"),
        ("author", .str "Unknown"), ("thumbnail", .str ""),
        ("categories", .arr []), ("source", .str "s")]]) ∧
    getCachedArticles (cacheArticles [sampleArticle] 100) 101 3600000 ≠
      some (.arr [articleJs sampleArticle]) := by
  constructor
  · rfl
  · intro h
    rw [show getCachedArticles (cacheArticles [sampleArticle] 100) 101 3600000 =
      some (.arr [.obj [("title", .str "t"), ("link", .str "l"),
        ("description", .str "d"), ("pubDate", .str "1970-01-01T00:00:00.000Z"),
        ("author", .str "Unknown"), ("thumbnail", .str ""),
        ("categories", .arr []), ("source", .str "s")]]) from rfl] at h
    simp [articleJs, sampleArticle] at h

/-- C3: `sortArticlesByDate` produces a sequence monotonically non-increasing
in `pubDate`, is a permutation of its input, and is stable: the articles of any
fixed `pubDate` appear in the output in exactly their input order. -/
theorem sortArticlesByDate_sorted_stable (articles : List Article) :
    List.Pairwise (fun a b : Article => b.pubDate ≤ a.pubDate)
      (sortArticlesByDate articles) ∧
    (∀ d : Int, (sortArticlesByDate articles).filter (fun a => a.pubDate == d) =
      articles.filter (fun a => a.pubDate == d)) ∧
    (sortArticlesByDate articles).Perm articles := by
  refine ⟨List.sorted_insertionSort dateGE articles, fun d => ?_, List.perm_insertionSort dateGE articles⟩
  apply filter_insertionSort_ties dateGE (fun a => a.pubDate == d) (fun a b ha hb => ?_) articles
  have ha2 : a.pubDate = d := by simpa using ha
  have hb2 : b.pubDate = d := by simpa using hb
  show b.pubDate ≤ a.pubDate
  rw [ha2, hb2]

/-- C7: a cache read at time `t` with `t - timestamp` not strictly less than
`updateInterval` is a miss (`none`), never the stale stored articles; a read
strictly before that boundary returns the articles field of the stored slot. -/
theorem getCachedArticles_expiry (articles : List Article) (now t interval : Int) :
    (interval ≤ t - now →
      getCachedArticles (cacheArticles articles now) t interval = none) ∧
    (t - now < interval →
      getCachedArticles (cacheArticles articles now) t interval =
        some (.arr (jsonRoundTripList (articles.map articleJs)))) := by
  have h : getCachedArticles (cacheArticles articles now) t interval =
      if t - now < interval then
        some (.arr (jsonRoundTripList (articles.map articleJs)))
      else none := rfl
  refine ⟨fun hle => ?_, fun hlt => ?_⟩
  · rw [h, if_neg (by omega)]
  · rw [h, if_pos hlt]

/-- Witness for C7 at a concrete slot: a read 5 ticks after a write with
interval 3 misses, a read 2 ticks after hits. -/
theorem getCachedArticles_expiry_witness :
    getCachedArticles (cacheArticles [] 0) 5 3 = none ∧
    getCachedArticles (cacheArticles [] 0) 2 3 = some (.arr []) :=
  ⟨(getCachedArticles_expiry [] 0 5 3).1 (by decide),
   (getCachedArticles_expiry [] 0 2 3).2 (by decide)⟩

/-- C9: `slugify` on "Hello, World!  Foo" (two spaces before Foo): lowercase
and trim, the whitespace runs become single hyphens, the comma and the
exclamation mark are stripped, the resulting double hyphen collapses. -/
theorem slugify_hello_world_foo : slugify "Hello, World!  Foo" = "hello-world-foo" := by
  decide

/-- C5: `fetchAllFeeds` returns exactly the successful responses in feed order
with every null sentinel discarded, the empty list when every feed fails; in
the two-feed scenario with one good 3-item body and one 500 status it returns
exactly the one good feed, and `displayArticles` renders the three articles
rather than the error placeholder. -/
theorem fetchAllFeeds_keeps_successes :
    (∀ env feeds, fetchAllFeeds env feeds = feeds.filterMap env.net) ∧
    (∀ env feeds, (∀ f ∈ feeds, env.net f = none) → fetchAllFeeds env feeds = []) ∧
    fetchAllFeeds scenarioEnv scenarioCfg.feeds = [goodFeed] ∧
    (sortArticlesByDate (parseFeedItems scenarioEnv.parseDate (some goodFeed))).length = 3 ∧
    displayArticlesHTML scenarioEnv scenarioCfg =
      generateArticleHTML scenarioCfg
        (sortArticlesByDate (parseFeedItems scenarioEnv.parseDate (some goodFeed))) ∧
    displayArticlesHTML scenarioEnv scenarioCfg ≠ errorHTML := by
  have h1 : ∀ env feeds, fetchAllFeeds env feeds = feeds.filterMap env.net := by
    intro env feeds
    simp [fetchAllFeeds, fetchFeed, List.filterMap_map]
    rfl
  refine ⟨h1, fun env feeds hall => ?_, by decide, by decide, by rfl, by decide⟩
  rw [h1]
  exact List.filterMap_eq_nil_iff.mpr hall

/-- Witness for C5 at a concrete all-failing environment. -/
theorem fetchAllFeeds_keeps_successes_witness :
    fetchAllFeeds ⟨fun _ => none, fun _ => 0⟩ ["a", "b"] = [] :=
  fetchAllFeeds_keeps_successes.2.1 ⟨fun _ => none, fun _ => 0⟩ ["a", "b"]
    (fun _ _ => rfl)

/-- C10: `sortArticlesByDate` sorts its argument array in place and returns
that very array: the returned reference is the argument reference, the array
behind it afterwards holds the stable descending reordering (a permutation of
the input), every other array is untouched, and on a concrete out-of-order
array the caller's array itself changes — the operation is not pure. -/
theorem sortArticlesByDateCall_in_place (σ : Nat → List Article) (r : Nat) :
    (sortArticlesByDateCall σ r).2 = r ∧
    (sortArticlesByDateCall σ r).1 r = sortArticlesByDate (σ r) ∧
    ((sortArticlesByDateCall σ r).1 r).Perm (σ r) ∧
    (∀ s, s ≠ r → (sortArticlesByDateCall σ r).1 s = σ s) ∧
    (sortArticlesByDateCall exampleHeap 0).1 0 ≠ exampleHeap 0 := by
  refine ⟨rfl, ?_, ?_, fun s hs => ?_, by decide⟩
  · show heapUpdate σ r (sortArticlesByDate (σ r)) r = sortArticlesByDate (σ r)
    simp [heapUpdate]
  · show (heapUpdate σ r (sortArticlesByDate (σ r)) r).Perm (σ r)
    simp only [heapUpdate, if_pos rfl]
    exact List.perm_insertionSort dateGE (σ r)
  · show heapUpdate σ r (sortArticlesByDate (σ r)) s = σ s
    simp [heapUpdate, hs]

/-- Witness for C10: an array other than the sorted one is untouched. -/
theorem sortArticlesByDateCall_in_place_witness :
    (sortArticlesByDateCall exampleHeap 0).1 1 = exampleHeap 1 :=
  (sortArticlesByDateCall_in_place exampleHeap 0).2.2.2.1 1 (by decide)

/-- C4: on a feed response with an items list, `parseFeedItems` produces one
Article per input item in order; each item with a missing field gets the
documented default (author "Unknown", thumbnail the enclosure link when present
otherwise the empty string, categories the empty sequence, source the feed
title), and title and description are the markup-stripped texts truncated to at
most 200 characters. -/
theorem parseFeedItems_field_mapping (parseDate : String → Int) (fd : FeedData)
    (items : List FeedItem) (h : fd.items = some items) :
    parseFeedItems parseDate (some fd) = items.map (itemToArticle parseDate fd.feed) ∧
    (parseFeedItems parseDate (some fd)).length = items.length ∧
    ∀ item : FeedItem,
      (item.author = none → (itemToArticle parseDate fd.feed item).author = "Unknown") ∧
      (item.thumbnail = none → item.enclosure = none →
        (itemToArticle parseDate fd.feed item).thumbnail = "") ∧
      (∀ lnk, item.thumbnail = none → item.enclosure = some ⟨some lnk⟩ → lnk ≠ "" →
        (itemToArticle parseDate fd.feed item).thumbnail = lnk) ∧
      (item.categories = none → (itemToArticle parseDate fd.feed item).categories = []) ∧
      (∀ t, fd.feed = some ⟨some t⟩ → t ≠ "" →
        (itemToArticle parseDate fd.feed item).source = t) ∧
      (itemToArticle parseDate fd.feed item).title = sanitizeText item.title ∧
      (itemToArticle parseDate fd.feed item).description = sanitizeText item.description ∧
      (itemToArticle parseDate fd.feed item).title.length ≤ 200 ∧
      (itemToArticle parseDate fd.feed item).description.length ≤ 200 := by
  have hlen : ∀ o : Option String, (sanitizeText o).length ≤ 200 := by
    intro o
    match o with
    | none => simp [sanitizeText]
    | some s =>
      by_cases hs : s = ""
      · simp [sanitizeText, hs]
      · rw [show sanitizeText (some s) = String.mk ((trimStr (stripTags s)).data.take 200) by
          simp [sanitizeText, hs]]
        show ((trimStr (stripTags s)).data.take 200).length ≤ 200
        rw [List.length_take]
        exact min_le_left _ _
  refine ⟨by simp [parseFeedItems, h], by simp [parseFeedItems, h], fun item => ?_⟩
  refine ⟨fun ha => ?_, fun ht he => ?_, fun lnk ht he hl => ?_, fun hc => ?_,
    fun t hf hne => ?_, rfl, rfl, hlen item.title, hlen item.description⟩
  · simp [itemToArticle, ha, jsOrStr]
  · simp [itemToArticle, ht, he, jsOrStr]
  · simp [itemToArticle, ht, he, jsOrStr, hl]
  · simp [itemToArticle, hc]
  · simp [itemToArticle, hf, jsOrStr, hne]

/-- Witness for C4 at a concrete feed: one item with every optional field
missing maps to the documented defaults. -/
theorem parseFeedItems_field_mapping_witness :
    parseFeedItems (fun _ => 7) (some ⟨some [⟨none, "L", none, "P", none, none, none, none⟩],
        some ⟨some "Feed T"⟩⟩) =
      [⟨"", "L", "", 7, "Unknown", "", [], "Feed T"⟩] ∧
    (itemToArticle (fun _ => 7) (some ⟨some "Feed T"⟩)
        ⟨none, "L", none, "P", none, none, none, none⟩).author = "Unknown" ∧
    (itemToArticle (fun _ => 7) (some ⟨some "Feed T"⟩)
        ⟨none, "L", none, "P", none, none, none, none⟩).source = "Feed T" := by
  have h := parseFeedItems_field_mapping (fun _ => 7)
    ⟨some [⟨none, "L", none, "P", none, none, none, none⟩], some ⟨some "Feed T"⟩⟩
    [⟨none, "L", none, "P", none, none, none, none⟩] rfl
  refine ⟨?_, (h.2.2 ⟨none, "L", none, "P", none, none, none, none⟩).1 rfl,
    (h.2.2 ⟨none, "L", none, "P", none, none, none, none⟩).2.2.2.2.1 "Feed T" rfl (by decide)⟩
  rw [h.1]
  decide

/-! ### Lemmas about the head mutations of updateMetaTag -/

/-- A missed attribute lookup means no entry carries the key. -/
theorem lookupAttr_eq_none_forall {l : List (String × String)} {k : String}
    (h : lookupAttr l k = none) : ∀ p ∈ l, p.1 ≠ k := by
  induction l with
  | nil => intro p hp; cases hp
  | cons q qs ih =>
    intro p hp
    by_cases hq : q.1 = k
    · rw [lookupAttr, if_pos hq] at h
      cases h
    · rw [lookupAttr, if_neg hq] at h
      rcases List.mem_cons.mp hp with hp1 | hp1
      · rw [hp1]; exact hq
      · exact ih h p hp1

/-- Appending an entry with a different key does not change a lookup. -/
theorem lookupAttr_append_single {l : List (String × String)} {k k2 v : String}
    (h : k2 ≠ k) : lookupAttr (l ++ [(k2, v)]) k = lookupAttr l k := by
  induction l with
  | nil => simp [lookupAttr, h]
  | cons q qs ih =>
    by_cases hq : q.1 = k
    · simp [lookupAttr, hq]
    · simp only [List.cons_append, lookupAttr, if_neg hq]
      exact ih

/-- Replacing the entries of one key does not change the lookup of another. -/
theorem lookupAttr_map_set {l : List (String × String)} {k k2 v : String}
    (h : k ≠ k2) :
    lookupAttr (l.map (fun p => if p.1 = k2 then (k2, v) else p)) k = lookupAttr l k := by
  induction l with
  | nil => rfl
  | cons q qs ih =>
    by_cases hq : q.1 = k2
    · have hq2 : ¬((k2 : String) = k) := fun hc => h hc.symm
      have hqk : ¬(q.1 = k) := by rw [hq]; exact hq2
      simp only [List.map_cons, if_pos hq, lookupAttr, if_neg hq2, if_neg hqk]
      exact ih
    · simp only [List.map_cons, if_neg hq, lookupAttr]
      by_cases hqk : q.1 = k
      · rw [if_pos hqk, if_pos hqk]
      · rw [if_neg hqk, if_neg hqk]
        exact ih

/-- `setAttribute` never changes the element's tag name. -/
theorem setAttr_name (e : MetaElem) (k v : String) : (setAttr e k v).name = e.name := by
  unfold setAttr
  cases lookupAttr e.attrs k <;> rfl

/-- Setting one attribute does not change the lookup of a different one. -/
theorem lookupAttr_setAttr_ne (e : MetaElem) {k k2 : String} (v : String)
    (h : k ≠ k2) : lookupAttr (setAttr e k2 v).attrs k = lookupAttr e.attrs k := by
  unfold setAttr
  cases hl : lookupAttr e.attrs k2 with
  | some w => exact lookupAttr_map_set h
  | none => exact lookupAttr_append_single (fun hc => h hc.symm)

/-- Replacing the entries of a key makes its lookup yield the new value, when
some entry carried the key. -/
theorem lookupAttr_map_set_self {l : List (String × String)} {k w : String} (v : String)
    (h : lookupAttr l k = some w) :
    lookupAttr (l.map (fun p => if p.1 = k then (k, v) else p)) k = some v := by
  induction l with
  | nil => cases h
  | cons q qs ih =>
    by_cases hq : q.1 = k
    · simp [List.map_cons, if_pos hq, lookupAttr]
    · rw [lookupAttr, if_neg hq] at h
      simp only [List.map_cons, if_neg hq, lookupAttr, if_neg hq]
      exact ih h

/-- Appending an entry for a previously missing key makes its lookup yield the
appended value. -/
theorem lookupAttr_append_self {l : List (String × String)} {k : String} (v : String)
    (h : lookupAttr l k = none) : lookupAttr (l ++ [(k, v)]) k = some v := by
  induction l with
  | nil => simp [lookupAttr]
  | cons q qs ih =>
    by_cases hq : q.1 = k
    · rw [lookupAttr, if_pos hq] at h
      cases h
    · rw [lookupAttr, if_neg hq] at h
      simp only [List.cons_append, lookupAttr, if_neg hq]
      exact ih h

/-- After `setAttribute`, looking the attribute up yields the set value. -/
theorem lookupAttr_setAttr_self (e : MetaElem) (k v : String) :
    lookupAttr (setAttr e k v).attrs k = some v := by
  unfold setAttr
  cases hl : lookupAttr e.attrs k with
  | some w => exact lookupAttr_map_set_self v hl
  | none => exact lookupAttr_append_self v hl

/-- Unfolding of `setAttr` when the attribute is present. -/
theorem setAttr_eq_of_some {e : MetaElem} {k w : String} (v : String)
    (hl : lookupAttr e.attrs k = some w) :
    setAttr e k v = ⟨e.name, e.attrs.map (fun p => if p.1 = k then (k, v) else p)⟩ := by
  unfold setAttr
  rw [hl]

/-- Unfolding of `setAttr` when the attribute is absent. -/
theorem setAttr_eq_of_none {e : MetaElem} {k : String} (v : String)
    (hl : lookupAttr e.attrs k = none) :
    setAttr e k v = ⟨e.name, e.attrs ++ [(k, v)]⟩ := by
  unfold setAttr
  rw [hl]

/-- Setting the same attribute to the same value twice equals setting it
once. -/
theorem setAttr_idem (e : MetaElem) (k v : String) :
    setAttr (setAttr e k v) k v = setAttr e k v := by
  have hff : ∀ p : String × String,
      (if (if p.1 = k then ((k, v) : String × String) else p).1 = k then ((k, v) : String × String)
        else if p.1 = k then (k, v) else p) = if p.1 = k then (k, v) else p := by
    intro p
    by_cases hp : p.1 = k
    · simp [hp]
    · simp [hp]
  cases hl : lookupAttr e.attrs k with
  | some w =>
    rw [setAttr_eq_of_some v hl]
    rw [setAttr_eq_of_some v
      (show lookupAttr (e.attrs.map (fun p => if p.1 = k then (k, v) else p)) k = some v from
        lookupAttr_map_set_self v hl)]
    simp only [List.map_map]
    congr 1
    apply List.map_congr_left
    intro p _
    exact hff p
  | none =>
    rw [setAttr_eq_of_none v hl]
    rw [setAttr_eq_of_some v
      (show lookupAttr (e.attrs ++ [(k, v)]) k = some v from lookupAttr_append_self v hl)]
    congr 1
    rw [List.map_append]
    have h1 : e.attrs.map (fun p => if p.1 = k then (k, v) else p) = e.attrs := by
      have := lookupAttr_eq_none_forall hl
      calc e.attrs.map (fun p => if p.1 = k then (k, v) else p)
          = e.attrs.map id := List.map_congr_left (fun p hp => by rw [if_neg (this p hp)]; rfl)
        _ = e.attrs := List.map_id e.attrs
    rw [h1]
    simp

/-- Setting the content attribute does not change whether an element matches a
selector on a different attribute. -/
theorem metaMatches_setAttr_content {attributeType : String} (property c : String)
    (e : MetaElem) (hA : attributeType ≠ "content") :
    metaMatches attributeType property (setAttr e "content" c) =
      metaMatches attributeType property e := by
  unfold metaMatches
  rw [setAttr_name, lookupAttr_setAttr_ne e c hA]

/-- A failed first-match scan means no element of the head matches. -/
theorem setFirstMatch_eq_none_forall {attributeType property c : String}
    {head : List MetaElem} (h : setFirstMatch attributeType property c head = none) :
    ∀ e ∈ head, metaMatches attributeType property e = false := by
  induction head with
  | nil => intro e he; cases he
  | cons q qs ih =>
    intro e he
    by_cases hq : metaMatches attributeType property q
    · rw [setFirstMatch, if_pos hq] at h
      cases h
    · rw [setFirstMatch, if_neg hq] at h
      rcases List.mem_cons.mp he with he1 | he1
      · rw [he1]
        exact Bool.not_eq_true _ ▸ (by simpa using hq)
      · cases hs : setFirstMatch attributeType property c qs with
        | some w => rw [hs] at h; cases h
        | none => exact ih hs e he1

/-- A scan over a prefix of non-matching elements passes them through. -/
theorem setFirstMatch_append_of_none {attributeType property c : String}
    {head : List MetaElem} (h : ∀ e ∈ head, metaMatches attributeType property e = false)
    (tail : List MetaElem) :
    setFirstMatch attributeType property c (head ++ tail) =
      (setFirstMatch attributeType property c tail).map (fun t => head ++ t) := by
  induction head with
  | nil =>
    simp only [List.nil_append]
    cases setFirstMatch attributeType property c tail <;> rfl
  | cons q qs ih =>
    have hq : metaMatches attributeType property q = false := h q (List.mem_cons_self q qs)
    rw [List.cons_append, setFirstMatch, if_neg (by simp [hq]),
      ih (fun e he => h e (List.mem_cons_of_mem q he))]
    cases setFirstMatch attributeType property c tail <;> rfl

/-- Re-running a successful first-match scan on its own output changes
nothing, provided the selector attribute is not the content attribute. -/
theorem setFirstMatch_idem {attributeType property c : String} (hA : attributeType ≠ "content") :
    ∀ {head h : List MetaElem}, setFirstMatch attributeType property c head = some h →
      setFirstMatch attributeType property c h = some h := by
  intro head
  induction head with
  | nil => intro h hh; cases hh
  | cons q qs ih =>
    intro h hh
    by_cases hq : metaMatches attributeType property q
    · rw [setFirstMatch, if_pos hq] at hh
      cases hh
      rw [setFirstMatch,
        if_pos (show metaMatches attributeType property (setAttr q "content" c) = true by
          rw [metaMatches_setAttr_content property c q hA]; exact hq),
        setAttr_idem]
    · rw [setFirstMatch, if_neg hq] at hh
      cases hs : setFirstMatch attributeType property c qs with
      | none => rw [hs] at hh; cases hh
      | some w =>
        rw [hs] at hh
        cases hh
        rw [setFirstMatch, if_neg hq, ih hs]
        rfl

/-- C8 counterexample: with `attributeKind = "content"` the find-or-create
discipline breaks. On an empty head, `updateMetaTag("og:title", "Hello",
"content")` creates a tag and sets its content to "Hello", so the tag no
longer matches the selector `meta[content="og:title"]`; the second identical
call finds nothing, creates a second tag, and the head state changes: the
claimed idempotence is false. -/
theorem updateMetaTag_content_kind_not_idempotent :
    updateMetaTag "og:title" "Hello" "content"
        (updateMetaTag "og:title" "Hello" "content" ([] : List MetaElem)) ≠
      updateMetaTag "og:title" "Hello" "content" ([] : List MetaElem) ∧
    (updateMetaTag "og:title" "Hello" "content"
        (updateMetaTag "og:title" "Hello" "content" ([] : List MetaElem))).length = 2 := by
  constructor
  · decide
  · decide

/-- C8 (amended): `updateMetaTag` leaves the head unchanged when content is
falsy; and whenever the selector attribute kind is not "content" itself (it is
"property" or "name" at every call site), the operation is an idempotent
find-or-create: one call on a head with no matching tag appends exactly one
meta tag carrying the attribute pair and the content, and a second identical
call changes nothing. -/
theorem updateMetaTag_find_or_create (property content attributeType : String)
    (head : List MetaElem) (hA : attributeType ≠ "content") :
    (content = "" → updateMetaTag property content attributeType head = head) ∧
    (content ≠ "" → (∀ e ∈ head, metaMatches attributeType property e = false) →
      updateMetaTag property content attributeType head =
        head ++ [⟨"meta", [(attributeType, property), ("content", content)]⟩] ∧
      (updateMetaTag property content attributeType head).filter
          (metaMatches attributeType property) =
        [⟨"meta", [(attributeType, property), ("content", content)]⟩]) ∧
    updateMetaTag property content attributeType
        (updateMetaTag property content attributeType head) =
      updateMetaTag property content attributeType head := by
  have hnew : setAttr (setAttr ⟨"meta", []⟩ attributeType property) "content" content =
      ⟨"meta", [(attributeType, property), ("content", content)]⟩ := by
    rw [setAttr_eq_of_none property
      (show lookupAttr (MetaElem.mk "meta" []).attrs attributeType = none from rfl)]
    rw [setAttr_eq_of_none content (by simp [lookupAttr, hA])]
    rfl
  have hmatch : metaMatches attributeType property
      ⟨"meta", [(attributeType, property), ("content", content)]⟩ = true := by
    simp [metaMatches, lookupAttr]
  have hset : setAttr ⟨"meta", [(attributeType, property), ("content", content)]⟩
      "content" content =
      ⟨"meta", [(attributeType, property), ("content", content)]⟩ := by
    rw [setAttr_eq_of_some content (show lookupAttr
      [(attributeType, property), ("content", content)] "content" = some content by
        simp [lookupAttr, hA])]
    simp [hA]
  refine ⟨fun hc => by rw [updateMetaTag, if_pos hc], fun hc hall => ?_, ?_⟩
  · have hsn : setFirstMatch attributeType property content head = none := by
      have h0 := setFirstMatch_append_of_none (c := content) hall ([] : List MetaElem)
      rw [List.append_nil] at h0
      rw [h0]
      rfl
    have h1 : updateMetaTag property content attributeType head =
        head ++ [⟨"meta", [(attributeType, property), ("content", content)]⟩] := by
      rw [updateMetaTag, if_neg hc, hsn, hnew]
    refine ⟨h1, ?_⟩
    rw [h1, List.filter_append]
    rw [List.filter_eq_nil_iff.mpr (fun e he => by simp [hall e he])]
    simp [List.filter, hmatch]
  · by_cases hc : content = ""
    · have h1 : updateMetaTag property content attributeType head = head := by
        rw [updateMetaTag, if_pos hc]
      rw [h1]
      exact h1
    · cases hs : setFirstMatch attributeType property content head with
      | some h =>
        have h1 : updateMetaTag property content attributeType head = h := by
          rw [updateMetaTag, if_neg hc, hs]
        rw [h1, updateMetaTag, if_neg hc, setFirstMatch_idem hA hs]
      | none =>
        have h1 : updateMetaTag property content attributeType head =
            head ++ [⟨"meta", [(attributeType, property), ("content", content)]⟩] := by
          rw [updateMetaTag, if_neg hc, hs, hnew]
        rw [h1, updateMetaTag, if_neg hc,
          setFirstMatch_append_of_none (setFirstMatch_eq_none_forall hs) _,
          show setFirstMatch attributeType property content
              [⟨"meta", [(attributeType, property), ("content", content)]⟩] =
            some [⟨"meta", [(attributeType, property), ("content", content)]⟩] by
              rw [setFirstMatch, if_pos hmatch, hset]]
        rfl

/-- Witness for C8 (amended) at a concrete head: the falsy no-op, the
single-tag creation on an empty head, and idempotence. -/
theorem updateMetaTag_find_or_create_witness :
    updateMetaTag "og:title" "" "property" ([] : List MetaElem) = [] ∧
    updateMetaTag "og:title" "T" "property" ([] : List MetaElem) =
      [⟨"meta", [("property", "og:title"), ("content", "T")]⟩] ∧
    updateMetaTag "og:title" "T" "property"
        (updateMetaTag "og:title" "T" "property" ([] : List MetaElem)) =
      updateMetaTag "og:title" "T" "property" ([] : List MetaElem) :=
  ⟨(updateMetaTag_find_or_create "og:title" "" "property" [] (by decide)).1 rfl,
   ((updateMetaTag_find_or_create "og:title" "T" "property" [] (by decide)).2.1
     (by decide) (fun e he => absurd he (List.not_mem_nil e))).1,
   (updateMetaTag_find_or_create "og:title" "T" "property" [] (by decide)).2.2⟩

/-- Bumping a word increments its entry (or installs it at 1). -/
theorem lookupCount_bump_self : ∀ (l : List (String × Nat)) (w : String),
    lookupCount (bump l w) w = some ((lookupCount l w).getD 0 + 1)
  | [], w => by simp [bump, lookupCount]
  | (k, n) :: rest, w => by
    by_cases hk : k = w
    · rw [bump, if_pos hk, lookupCount, if_pos hk, lookupCount, if_pos hk]
      rfl
    · rw [bump, if_neg hk, lookupCount, if_neg hk, lookupCount, if_neg hk]
      exact lookupCount_bump_self rest w

/-- Bumping a word leaves the entries of other words alone. -/
theorem lookupCount_bump_ne : ∀ (l : List (String × Nat)) {k w : String}, k ≠ w →
    lookupCount (bump l w) k = lookupCount l k
  | [], k, w, h => by
    show (if w = k then some 1 else lookupCount [] k) = none
    rw [if_neg (fun hc => h hc.symm)]
    rfl
  | (k2, n) :: rest, k, w, h => by
    by_cases hk : k2 = w
    · have hk2 : ¬(k2 = k) := by rw [hk]; exact fun hc => h hc.symm
      rw [bump, if_pos hk, lookupCount, if_neg hk2, lookupCount, if_neg hk2]
    · rw [bump, if_neg hk, lookupCount, lookupCount]
      by_cases hk2 : k2 = k
      · rw [if_pos hk2, if_pos hk2]
      · rw [if_neg hk2, if_neg hk2]
        exact lookupCount_bump_ne rest h

/-- The frequency fold counts exactly the occurrences of each word. -/
theorem lookupCount_foldl_bump : ∀ (ws : List String) (l : List (String × Nat)) (k : String),
    (lookupCount (ws.foldl bump l) k).getD 0 = (lookupCount l k).getD 0 + ws.count k
  | [], l, k => by simp
  | w :: ws, l, k => by
    rw [List.foldl_cons, lookupCount_foldl_bump ws (bump l w) k, List.count_cons]
    by_cases hk : k = w
    · rw [hk, lookupCount_bump_self]
      simp
      omega
    · have hk2 : ¬(w = k) := fun hc => hk hc.symm
      rw [lookupCount_bump_ne l hk]
      simp [hk, hk2]

/-- Bumping a word already present keeps the key list. -/
theorem bump_keys_of_mem : ∀ {l : List (String × Nat)} {w : String},
    w ∈ l.map Prod.fst → (bump l w).map Prod.fst = l.map Prod.fst
  | [], w, h => by cases h
  | (k, n) :: rest, w, h => by
    by_cases hk : k = w
    · rw [bump, if_pos hk]
      rfl
    · rw [bump, if_neg hk, List.map_cons, List.map_cons]
      rcases List.mem_cons.mp h with h1 | h1
      · exact absurd h1.symm hk
      · rw [bump_keys_of_mem h1]

/-- Bumping a missing word appends its key. -/
theorem bump_keys_of_not_mem : ∀ {l : List (String × Nat)} {w : String},
    w ∉ l.map Prod.fst → (bump l w).map Prod.fst = l.map Prod.fst ++ [w]
  | [], w, _ => rfl
  | (k, n) :: rest, w, h => by
    have hk : ¬(k = w) := fun hc => h (by rw [List.map_cons, hc]; exact List.mem_cons_self w _)
    rw [bump, if_neg hk, List.map_cons, List.map_cons, List.cons_append,
      bump_keys_of_not_mem (fun hc => h (List.mem_cons_of_mem _ hc))]

/-- Bumping preserves key distinctness. -/
theorem bump_keys_nodup {l : List (String × Nat)} {w : String}
    (h : (l.map Prod.fst).Nodup) : ((bump l w).map Prod.fst).Nodup := by
  by_cases hw : w ∈ l.map Prod.fst
  · rw [bump_keys_of_mem hw]
    exact h
  · rw [bump_keys_of_not_mem hw]
    simp [List.nodup_append, h, hw]

/-- The frequency fold preserves key distinctness. -/
theorem foldl_bump_keys_nodup : ∀ (ws : List String) {l : List (String × Nat)},
    (l.map Prod.fst).Nodup → ((ws.foldl bump l).map Prod.fst).Nodup
  | [], _, h => h
  | w :: ws, l, h => by
    rw [List.foldl_cons]
    exact foldl_bump_keys_nodup ws (bump_keys_nodup h)

/-- Bump adds no key but the bumped one. -/
theorem mem_bump_keys : ∀ {l : List (String × Nat)} {w k : String},
    k ∈ (bump l w).map Prod.fst → k ∈ l.map Prod.fst ∨ k = w := by
  intro l w k h
  by_cases hw : w ∈ l.map Prod.fst
  · rw [bump_keys_of_mem hw] at h
    exact Or.inl h
  · rw [bump_keys_of_not_mem hw] at h
    rcases List.mem_append.mp h with h1 | h1
    · exact Or.inl h1
    · exact Or.inr (List.mem_singleton.mp h1)

/-- Every key of the frequency fold comes from the accumulator or the words. -/
theorem mem_keys_foldl_bump : ∀ (ws : List String) {l : List (String × Nat)} {k : String},
    k ∈ (ws.foldl bump l).map Prod.fst → k ∈ l.map Prod.fst ∨ k ∈ ws
  | [], l, k, h => Or.inl h
  | w :: ws, l, k, h => by
    rw [List.foldl_cons] at h
    rcases mem_keys_foldl_bump ws h with h1 | h1
    · rcases mem_bump_keys h1 with h2 | h2
      · exact Or.inl h2
      · exact Or.inr (by rw [h2]; exact List.mem_cons_self w ws)
    · exact Or.inr (List.mem_cons_of_mem w h1)

/-- On a list with distinct keys, membership determines the lookup. -/
theorem lookupCount_of_mem : ∀ {l : List (String × Nat)} {k : String} {n : Nat},
    (l.map Prod.fst).Nodup → (k, n) ∈ l → lookupCount l k = some n
  | [], k, n, _, h => by cases h
  | (k2, m) :: rest, k, n, hnd, h => by
    rcases List.mem_cons.mp h with h1 | h1
    · cases h1
      rw [lookupCount, if_pos rfl]
    · have hk : ¬(k2 = k) := by
        intro hc
        have : k2 ∈ rest.map Prod.fst := by
          rw [hc]
          exact List.mem_map_of_mem Prod.fst h1
        exact (List.nodup_cons.mp (by simpa using hnd)).1 this
      rw [lookupCount, if_neg hk]
      exact lookupCount_of_mem (List.nodup_cons.mp (by simpa using hnd)).2 h1

/-- Every entry of the frequency object records the exact occurrence count of
its word, and its word occurs among the counted words. -/
theorem mem_freqEntries {ws : List String} {k : String} {n : Nat}
    (h : (k, n) ∈ freqEntries ws) : n = ws.count k ∧ k ∈ ws := by
  have hnd : ((freqEntries ws).map Prod.fst).Nodup :=
    foldl_bump_keys_nodup ws (by simp)
  have hlk : lookupCount (freqEntries ws) k = some n := lookupCount_of_mem hnd h
  have hcnt := lookupCount_foldl_bump ws [] k
  rw [show (ws.foldl bump []) = freqEntries ws from rfl, hlk] at hcnt
  refine ⟨by simpa [lookupCount] using hcnt, ?_⟩
  have hkm : k ∈ (freqEntries ws).map Prod.fst := List.mem_map_of_mem Prod.fst h
  rcases mem_keys_foldl_bump ws hkm with h1 | h1
  · simp at h1
  · exact h1

/-- Every token has at least 4 characters. -/
theorem tokensOf_min_length {text w : String} (h : w ∈ tokensOf text) : 4 ≤ w.length := by
  unfold tokensOf at h
  rcases List.mem_filterMap.mp h with ⟨r, _, hif⟩
  by_cases hc : 4 ≤ r.length ∧ r.all isLowerAZ
  · rw [if_pos hc] at hif
    injection hif with hw
    rw [← hw]
    exact hc.1
  · rw [if_neg hc] at hif
    cases hif

/-- Every keyword returned by `extractKeywords` heads an entry of the sorted
frequency list, hence is a surviving token. -/
theorem extractKeywords_mem_filteredTokens {text : String} {count : Nat} {w : String}
    (h : w ∈ extractKeywords text count) : w ∈ filteredTokens text := by
  unfold extractKeywords at h
  rcases List.mem_map.mp h with ⟨e, he, hw⟩
  have he2 : e ∈ List.insertionSort entryGE (freqEntries (filteredTokens text)) :=
    (List.take_sublist count _).subset he
  have he3 : e ∈ freqEntries (filteredTokens text) := (List.mem_insertionSort entryGE).mp he2
  have := (mem_freqEntries (show (e.1, e.2) ∈ freqEntries (filteredTokens text) from he3)).2
  rw [← hw]
  exact this

/-- C6: `extractKeywords` never returns a stop word nor a token shorter than 4
letters, returns at most `count` keywords, orders them by non-increasing
frequency of occurrence among the tokens of the input, and breaks frequency
ties by first-encountered order (the sorted entry list filtered to one
frequency equals the insertion-ordered entry list so filtered). -/
theorem extractKeywords_props (text : String) (count : Nat) :
    (∀ w ∈ extractKeywords text count, w ∉ commonWords) ∧
    (∀ w ∈ extractKeywords text count, 4 ≤ w.length) ∧
    (extractKeywords text count).length ≤ count ∧
    List.Pairwise (fun w1 w2 => (tokensOf text).count w2 ≤ (tokensOf text).count w1)
      (extractKeywords text count) ∧
    (∀ n : Nat,
      (List.insertionSort entryGE (freqEntries (filteredTokens text))).filter
          (fun e => e.2 == n) =
        (freqEntries (filteredTokens text)).filter (fun e => e.2 == n)) := by
  have hmem : ∀ w ∈ extractKeywords text count,
      w ∈ tokensOf text ∧ w ∉ commonWords := by
    intro w hw
    have h1 := extractKeywords_mem_filteredTokens hw
    unfold filteredTokens at h1
    have h2 := List.mem_filter.mp h1
    exact ⟨h2.1, of_decide_eq_true h2.2⟩
  refine ⟨fun w hw => (hmem w hw).2, fun w hw => tokensOf_min_length (hmem w hw).1, ?_, ?_, ?_⟩
  · rw [show extractKeywords text count = ((List.insertionSort entryGE
        (freqEntries (filteredTokens text))).take count).map Prod.fst from rfl,
      List.length_map]
    exact List.length_take_le count _
  · have hsorted : List.Pairwise entryGE
        (List.insertionSort entryGE (freqEntries (filteredTokens text))) :=
      List.sorted_insertionSort entryGE (freqEntries (filteredTokens text))
    have htake : List.Pairwise entryGE
        ((List.insertionSort entryGE (freqEntries (filteredTokens text))).take count) :=
      List.Pairwise.sublist (List.take_sublist count _) hsorted
    show List.Pairwise _ (((List.insertionSort entryGE
      (freqEntries (filteredTokens text))).take count).map Prod.fst)
    rw [List.pairwise_map]
    refine htake.imp_of_mem ?_
    intro e1 e2 h1 h2 hge
    have hm1 : e1 ∈ freqEntries (filteredTokens text) :=
      (List.mem_insertionSort entryGE).mp ((List.take_sublist count _).subset h1)
    have hm2 : e2 ∈ freqEntries (filteredTokens text) :=
      (List.mem_insertionSort entryGE).mp ((List.take_sublist count _).subset h2)
    have hc1 := mem_freqEntries (show (e1.1, e1.2) ∈ _ from hm1)
    have hc2 := mem_freqEntries (show (e2.1, e2.2) ∈ _ from hm2)
    have hf1 : (filteredTokens text).count e1.1 = (tokensOf text).count e1.1 := by
      unfold filteredTokens
      refine List.count_filter ?_
      have hns : e1.1 ∉ commonWords := by
        rcases List.mem_filter.mp hc1.2 with ⟨_, hd⟩
        exact of_decide_eq_true hd
      exact decide_eq_true hns
    have hf2 : (filteredTokens text).count e2.1 = (tokensOf text).count e2.1 := by
      unfold filteredTokens
      refine List.count_filter ?_
      have hns : e2.1 ∉ commonWords := by
        rcases List.mem_filter.mp hc2.2 with ⟨_, hd⟩
        exact of_decide_eq_true hd
      exact decide_eq_true hns
    rw [← hf1, ← hf2]
    rw [← hc1.1, ← hc2.1]
    exact hge
  · intro n
    refine filter_insertionSort_ties entryGE (fun e => e.2 == n) ?_ _
    intro a b ha hb
    have ha2 : a.2 = n := by simpa using ha
    have hb2 : b.2 = n := by simpa using hb
    show b.2 ≤ a.2
    rw [ha2, hb2]

/-- Witness for C6 at a concrete text and count. -/
theorem extractKeywords_props_witness :
    ("hello" ∉ commonWords) ∧ 4 ≤ ("hello" : String).length ∧
    (extractKeywords "hello hello world which" 2).length ≤ 2 :=
  ⟨(extractKeywords_props "hello hello world which" 2).1 "hello" (by decide),
   (extractKeywords_props "hello hello world which" 2).2.1 "hello" (by decide),
   (extractKeywords_props "hello hello world which" 2).2.2.1⟩
